import Mathlib

/-!
# QuantumAutomate: the command bootstrap (`cmd/quantumautomate/main.go`)

The Go program is

    func main() {
        verbose := flag.Bool("verbose", false, "Enable verbose logging")
        flag.Parse()
        app := quantumautomate.NewApp(*verbose)
        if err := app.Run(); err != nil {
            log.Fatal(err)
        }
    }

The embedding below follows `main` statement by statement, twice: as a function
from the arguments to what the process shows (`main`), and as the same body with
its calls kept as data and carried out by an interpreter that logs each call
with its instance and result (`mainShell`, `Shell.exec`); the two agree
(`exec_mainShell_erase`).  The two calls into
`internal/quantumautomate` (`NewApp`, `App.Run`) are parameters of the model; the
calls into the Go standard library (`flag.Bool`, `flag.Parse`, `log.Fatal`) are
embedded from the library's documented behaviour for the default
`flag.CommandLine` set (error handling `ExitOnError`, output on standard error)
and the default logger.

Go strings are byte strings; every byte comparison made by the flag parser is
against an ASCII byte (`-`, `=`), so on UTF-8 text the comparison of characters
used here agrees with the comparison of bytes.
-/

namespace QuantumAutomate

/-! ## Standard library: `strconv.ParseBool` and `flag` -/

/-- The Go function `strconv.ParseBool`: `none` stands for the syntax error. -/
def ParseBool (str : String) : Option Bool :=
  if str ∈ ["1", "t", "T", "true", "TRUE", "True"] then some true
  else if str ∈ ["0", "f", "F", "false", "FALSE", "False"] then some false
  else none

/-- The errors `FlagSet.parseOne` can return for a flag set whose only formal
flag is the boolean `verbose`: `ErrHelp`, or one of the three `failf` calls that
are reachable (`bad flag syntax`, `flag provided but not defined`,
`invalid boolean value`). -/
inductive FlagError where
  | ErrHelp
  | malformed (s : String)
  | undefined (name : String)
  | invalidBool (value : String)
  deriving DecidableEq, Repr

/-- The result of one call of `FlagSet.parseOne` on the argument at the head of
`f.args`: `seen b` is `return true, nil` after `Set` stored `b` in the flag
variable and the argument was dropped; `stop` is `return false, nil` with
`f.args` unchanged (a non-flag argument); `terminator` is `return false, nil`
after dropping the argument `--`; `fail e` is `return false, e`. -/
inductive Step where
  | seen (value : Bool)
  | stop
  | terminator
  | fail (err : FlagError)
  deriving DecidableEq, Repr

/-- The loop `for i := 1; i < len(name); i++ { if name[i] == '=' ... }` of
`parseOne`, run on `name[1:]`: the part before the first `=` and, when there is
one, the part after it. -/
def splitValue : List Char → List Char × Option (List Char)
  | [] => ([], none)
  | c :: cs =>
    if c = '=' then ([], some cs)
    else ((splitValue cs).1.cons c, (splitValue cs).2)

/-- The name of the one formal flag, `flag.Bool("verbose", ...)`. -/
def flagName : String := "verbose"

/-- The usage string of the one formal flag. -/
def flagUsage : String := "Enable verbose logging"

/-- The last part of `parseOne`: look the name up among the formal flags
(`f.formal[name]`) and, for the boolean flag `verbose`, call `Set` with the
value given after `=`, or with `"true"` when there is none. -/
def setFlag (name : String) (value : Option String) : Step :=
  if name ≠ flagName then
    if name = "help" ∨ name = "h" then .fail .ErrHelp
    else .fail (.undefined name)
  else
    match value with
    | some v =>
      match ParseBool v with
      | some b => .seen b
      | none => .fail (.invalidBool v)
    | none => .seen true

/-- The middle part of `parseOne`, on `name := s[numMinuses:]`: the syntax
check `len(name) == 0 || name[0] == '-' || name[0] == '='`, then the split at
the first `=`. -/
def parseName (s : String) : List Char → Step
  | [] => .fail (.malformed s)
  | n0 :: ns =>
    if n0 = '-' ∨ n0 = '=' then .fail (.malformed s)
    else
      setFlag (String.mk (n0 :: (splitValue ns).1))
        ((splitValue ns).2.map String.mk)

/-- The Go method `FlagSet.parseOne` applied to the head argument `s`, for the
flag set that `main` builds (one boolean flag, default `false`).  A boolean flag
never takes its value from the next argument, so the step depends on `s`
alone. -/
def parseOne (s : String) : Step :=
  match s.data with
  | [] => .stop
  | [_] => .stop
  | c0 :: c1 :: cs =>
    if c0 ≠ '-' then .stop
    else if c1 = '-' then
      if cs = [] then .terminator else parseName s cs
    else parseName s (c1 :: cs)

/-- What is fixed outside `main.go`: `os.Args[0]`, the header the default logger
puts before a message (date and time, `log.LstdFlags`), `strconv.Quote` as used
by the verb `%q`, and the two operations of `internal/quantumautomate`.  `Run`
gives `none` for a nil error and `some m` for a non-nil error whose
`Error()` text is `m`. -/
structure Env (App : Type) where
  prog : String
  stamp : String
  quote : String → String
  NewApp : Bool → App
  Run : App → Option String

/-- The default `flag.Usage`: the header line and `PrintDefaults` for the one
flag (a boolean flag has no value name, and the zero default is not shown). -/
def usage (prog : String) : String :=
  "Usage of " ++ prog ++ ":\n" ++
    (let b := "  -" ++ flagName
     b ++ (if b.length ≤ 4 then "\t" else "\n    \t") ++ flagUsage ++ "\n")

/-- The text `parseOne` writes to the flag set's output (standard error) on the
way to returning the error: `failf` prints the message and then the usage;
`ErrHelp` prints the usage only. -/
def FlagError.output {App : Type} (env : Env App) : FlagError → String
  | .ErrHelp => usage env.prog
  | .malformed s => "bad flag syntax: " ++ s ++ "\n" ++ usage env.prog
  | .undefined name =>
    "flag provided but not defined: -" ++ name ++ "\n" ++ usage env.prog
  | .invalidBool value =>
    "invalid boolean value " ++ env.quote value ++ " for -" ++ flagName ++
      ": parse error" ++ "\n" ++ usage env.prog

/-- The exit status of `FlagSet.Parse` under `ExitOnError`, as of Go 1.15:
`if err == ErrHelp { os.Exit(0) }; os.Exit(2)`. -/
def FlagError.status : FlagError → Nat
  | .ErrHelp => 0
  | _ => 2

/-- How `flag.Parse()` ends: it returns, with the value of the flag variable
and the remaining arguments, or it ends the process with `os.Exit`. -/
inductive ParseResult where
  | ok (verbose : Bool) (rest : List String)
  | exit (err : FlagError)
  deriving DecidableEq, Repr

/-- The Go method `FlagSet.Parse`: call `parseOne` until it reports no flag
seen; `v` is the current value of the flag variable. -/
def Parse : Bool → List String → ParseResult
  | v, [] => .ok v []
  | v, s :: rest =>
    match parseOne s with
    | .seen b => Parse b rest
    | .stop => .ok v (s :: rest)
    | .terminator => .ok v rest
    | .fail e => .exit e

/-- The output of the default logger for `log.Fatal(err)`: header, message, and
a newline unless the message already ends in one. -/
def fatalOutput (stamp msg : String) : String :=
  stamp ++ msg ++ (if msg.data.getLast? = some '\n' then "" else "\n")

/-! ## `main` -/

/-- The calls `main` makes, in order. -/
inductive Event where
  | parsed (verbose : Bool)
  | NewApp (verbose : Bool)
  | Run
  | logFatal (msg : String)
  | osExit (status : Nat)
  | ret
  deriving DecidableEq, Repr

/-- What a run of the process shows: exit status, what `main` and the library
calls it makes wrote to standard error, and the calls made. -/
structure Outcome where
  status : Nat
  stderr : String
  trace : List Event
  deriving DecidableEq, Repr

/-- The Go function `main`, on `os.Args[1:] = args`. -/
def main {App : Type} (env : Env App) (args : List String) : Outcome :=
  match Parse false args with
  | .exit e => ⟨e.status, e.output env, [.osExit e.status]⟩
  | .ok verbose _ =>
    let app := env.NewApp verbose
    match env.Run app with
    | some err =>
      ⟨1, fatalOutput env.stamp err,
        [.parsed verbose, .NewApp verbose, .Run, .logFatal err, .osExit 1]⟩
    | none => ⟨0, "", [.parsed verbose, .NewApp verbose, .Run, .ret]⟩

/-! ## `main`, call by call

The same function body with its calls kept as data, so that a run can be
observed call by call: which calls were made, in which order, on which
application instance and with which results.  The log of a run is written by
the interpreter at the moment it carries a call out; a body cannot use a
collaborator without the call appearing in the log, nor log a call it did not
make. -/

/-- One entry of the call log: the call made, what it was given and what it
gave back.  `flagParse v` is `flag.Parse()` having returned with `*verbose = v`;
`NewApp v app` is `quantumautomate.NewApp(v)` having returned `app`;
`Run app err` is `app.Run()` having returned `err`. -/
inductive Call (App : Type) where
  | flagParse (verbose : Bool)
  | NewApp (verbose : Bool) (app : App)
  | Run (app : App) (err : Option String)
  | logFatal (msg : String)
  | osExit (status : Nat)
  | ret
  deriving DecidableEq, Repr

/-- A function body of the shell as a tree of calls: each call names what it
is given and continues with what it gives back; `logFatal` and `ret` end the
body. -/
inductive Shell (App : Type) where
  | flagParse (k : Bool → Shell App)
  | NewApp (verbose : Bool) (k : App → Shell App)
  | Run (app : App) (k : Option String → Shell App)
  | logFatal (msg : String)
  | ret

/-- What a run shows, call by call: exit status, standard error, and the log
of calls. -/
structure Execution (App : Type) where
  status : Nat
  stderr : String
  calls : List (Call App)
  deriving DecidableEq, Repr

/-- Put a call in front of the log of the rest of the run. -/
def Execution.after {App : Type} (c : Call App) (x : Execution App) :
    Execution App :=
  ⟨x.status, x.stderr, c :: x.calls⟩

/-- Run a body against the collaborators `env` on `os.Args[1:] = args`.  Each
call is carried out here and nowhere else, and logged as it is carried out:
`flag.Parse` either ends the process or hands the flag value on;
`NewApp` and `Run` are `env.NewApp` and `env.Run`; `log.Fatal` writes the
message and exits with status 1; returning from `main` exits with status 0. -/
def Shell.exec {App : Type} (env : Env App) (args : List String) :
    Shell App → Execution App
  | .flagParse k =>
    match Parse false args with
    | .exit e => ⟨e.status, e.output env, [.osExit e.status]⟩
    | .ok verbose _ => (Shell.exec env args (k verbose)).after (.flagParse verbose)
  | .NewApp verbose k =>
    (Shell.exec env args (k (env.NewApp verbose))).after
      (.NewApp verbose (env.NewApp verbose))
  | .Run app k =>
    (Shell.exec env args (k (env.Run app))).after (.Run app (env.Run app))
  | .logFatal msg =>
    ⟨1, fatalOutput env.stamp msg, [.logFatal msg, .osExit 1]⟩
  | .ret => ⟨0, "", [.ret]⟩

/-- The body of the Go function `main`, line by line:
`verbose := flag.Bool(...); flag.Parse()`, `app := NewApp(*verbose)`,
`err := app.Run()`, `if err != nil { log.Fatal(err) }`. -/
def mainShell {App : Type} : Shell App :=
  .flagParse fun verbose =>
  .NewApp verbose fun app =>
  .Run app fun err =>
  match err with
  | some e => .logFatal e
  | none => .ret

/-- Forget the instances and results in a log entry. -/
def Call.erase {App : Type} : Call App → Event
  | .flagParse v => .parsed v
  | .NewApp v _ => .NewApp v
  | .Run _ _ => .Run
  | .logFatal m => .logFatal m
  | .osExit c => .osExit c
  | .ret => .ret

/-- Forget the instances and results in the log of a run. -/
def Execution.erase {App : Type} (x : Execution App) : Outcome :=
  ⟨x.status, x.stderr, x.calls.map Call.erase⟩

/-- The calls of `NewApp` in a log. -/
def Call.isNewApp {App : Type} : Call App → Bool
  | .NewApp _ _ => true
  | _ => false

/-- The calls of `Run` in a log. -/
def Call.isRun {App : Type} : Call App → Bool
  | .Run _ _ => true
  | _ => false

/-! ## The shell's state machine, as the specification names it -/

/-- The states the specification gives the shell:
`Created → Configured → Running → {Succeeded, Failed}`. -/
inductive Phase where
  | Created
  | Configured
  | Running
  | Succeeded
  | Failed
  deriving DecidableEq, Repr

/-- The transitions the specification allows. -/
def Phase.next : Phase → Phase → Bool
  | .Created, .Configured => true
  | .Configured, .Running => true
  | .Running, .Succeeded => true
  | .Running, .Failed => true
  | _, _ => false

/-- The state a logged call brings the shell into: the configuration is
resolved when `flag.Parse` has returned, the application runs from the call of
`Run`, and the run has succeeded when `main` returns and failed when it calls
`log.Fatal`.  Constructing the application and the exit call enter no state. -/
def Call.enters {App : Type} : Call App → Option Phase
  | .flagParse _ => some .Configured
  | .Run _ _ => some .Running
  | .ret => some .Succeeded
  | .logFatal _ => some .Failed
  | .NewApp _ _ => none
  | .osExit _ => none

/-- The states visited by a run, the initial state first, one entry for every
time a state is entered. -/
def phases {App : Type} (x : Execution App) : List Phase :=
  Phase.Created :: x.calls.filterMap Call.enters

/-! ## Argument forms and concrete environments -/

/-- An argument that is not a flag: it does not begin with `-`, or it is `-`
alone. -/
def nonFlag (s : String) : Prop :=
  s.data.head? ≠ some '-' ∨ s = "-"

instance (s : String) : Decidable (nonFlag s) := by
  unfold nonFlag; infer_instance

/-- The range in which arguments are taken as flags: the arguments before the
first one at which `parseOne` reports no flag seen and no error (a non-flag
argument or the terminator `--`). -/
def flagArgs (args : List String) : List String :=
  args.takeWhile fun s => parseOne s ≠ Step.stop ∧ parseOne s ≠ Step.terminator

/-- The spellings of the flag that store `b`: the bare flag with one or two
dashes stores `true`; `=value` stores what `ParseBool` makes of the value. -/
def verboseForms : Bool → List String
  | true =>
    ["-verbose", "--verbose",
     "-verbose=1", "-verbose=t", "-verbose=T", "-verbose=true", "-verbose=TRUE",
     "-verbose=True",
     "--verbose=1", "--verbose=t", "--verbose=T", "--verbose=true",
     "--verbose=TRUE", "--verbose=True"]
  | false =>
    ["-verbose=0", "-verbose=f", "-verbose=F", "-verbose=false",
     "-verbose=FALSE", "-verbose=False",
     "--verbose=0", "--verbose=f", "--verbose=F", "--verbose=false",
     "--verbose=FALSE", "--verbose=False"]

/-- An argument naming a flag that is not defined: `parseOne` passes its
syntax check, finds no formal flag of that name and returns `ErrHelp` (for the
names `help` and `h`) or the error "flag provided but not defined". -/
def unrecognized (s : String) : Prop :=
  parseOne s = Step.fail FlagError.ErrHelp ∨
    ∃ name, parseOne s = Step.fail (FlagError.undefined name)

/-- A concrete environment: the application records the flag it was built
with, and `run` says what `Run` returns for it. -/
def sampleEnv (run : Bool → Option String) : Env Bool where
  prog := "quantumautomate"
  stamp := "2024/05/01 12:00:00 "
  quote := String.quote
  NewApp := id
  Run := run

/-! ## Facts about the parser -/

theorem splitValue_append (l : List Char) :
    l = (splitValue l).1 ++
      (match (splitValue l).2 with
        | none => []
        | some v => '=' :: v) := by
  induction l with
  | nil => simp [splitValue]
  | cons c cs ih =>
    by_cases hc : c = '='
    · simp [splitValue, hc]
    · simp only [splitValue, hc, if_false, List.cons_append]
      exact congrArg _ ih

theorem ParseBool_some (v : String) (b : Bool) (h : ParseBool v = some b) :
    v ∈ (match b with
      | true => ["1", "t", "T", "true", "TRUE", "True"]
      | false => ["0", "f", "F", "false", "FALSE", "False"]) := by
  unfold ParseBool at h
  split_ifs at h with h1 h2
  · cases h; exact h1
  · cases h; exact h2

theorem setFlag_seen (name : String) (value : Option String) (b : Bool)
    (h : setFlag name value = Step.seen b) :
    name = "verbose" ∧
      ((value = none ∧ b = true) ∨ ∃ v, value = some v ∧ ParseBool v = some b) := by
  unfold setFlag at h
  split_ifs at h with h1 h2
  rw [not_not] at h1
  refine ⟨h1, ?_⟩
  cases value with
  | none => simp at h; exact Or.inl ⟨rfl, h⟩
  | some v =>
    right
    refine ⟨v, rfl, ?_⟩
    simp only at h
    cases hb : ParseBool v with
    | none => simp [hb] at h
    | some b2 => simp [hb] at h; rw [h]

theorem parseName_seen (s : String) (body : List Char) (b : Bool)
    (h : parseName s body = Step.seen b) :
    (body = "verbose".data ∧ b = true) ∨
      ∃ v, body = "verbose=".data ++ v.data ∧ ParseBool v = some b := by
  cases body with
  | nil => simp [parseName] at h
  | cons n0 ns =>
    simp only [parseName] at h
    split_ifs at h with h1
    obtain ⟨hname, hval⟩ := setFlag_seen _ _ _ h
    have hdata : n0 :: (splitValue ns).1 = "verbose".data := congrArg String.data hname
    have hns := splitValue_append ns
    rcases hval with ⟨hnone, hb⟩ | ⟨v, hsome, hb⟩
    · left
      refine ⟨?_, hb⟩
      cases h2 : (splitValue ns).2 with
      | some x => simp [h2] at hnone
      | none =>
        rw [h2] at hns
        simp only [List.append_nil] at hns
        rw [hns, hdata]
    · right
      refine ⟨v, ?_, hb⟩
      cases h2 : (splitValue ns).2 with
      | none => simp [h2] at hsome
      | some x =>
        rw [h2] at hns hsome
        simp only [Option.map_some', Option.some.injEq] at hsome
        subst hsome
        simp only at hns
        rw [hns, ← List.cons_append, hdata]
        simp

theorem parseOne_seen_data (s : String) (b : Bool) (h : parseOne s = Step.seen b) :
    ∃ body, (s.data = '-' :: body ∨ s.data = '-' :: '-' :: body) ∧
      parseName s body = Step.seen b := by
  unfold parseOne at h
  split at h
  · simp at h
  · simp at h
  · rename_i c0 c1 cs hs
    split_ifs at h with h0 h1 h2
    · rw [not_not] at h0
      exact ⟨cs, Or.inr (by rw [hs, h0, h1]), h⟩
    · rw [not_not] at h0
      exact ⟨c1 :: cs, Or.inl (by rw [hs, h0]), h⟩

theorem parseOne_seen (s : String) (b : Bool) (h : parseOne s = Step.seen b) :
    s ∈ verboseForms b := by
  obtain ⟨body, hs, hn⟩ := parseOne_seen_data s b h
  obtain ⟨l⟩ := s
  simp only at hs
  rcases parseName_seen _ _ _ hn with ⟨hb, rfl⟩ | ⟨v, hb, hv⟩
  · subst hb
    rcases hs with rfl | rfl <;> decide
  · subst hb
    have hlit := ParseBool_some v b hv
    cases b <;> simp only [List.mem_cons, List.mem_singleton, List.not_mem_nil, or_false] at hlit <;>
      rcases hlit with rfl | rfl | rfl | rfl | rfl | rfl <;>
      rcases hs with rfl | rfl <;> decide

theorem parseOne_of_form : ∀ b, ∀ s ∈ verboseForms b, parseOne s = Step.seen b := by
  decide

theorem parseOne_nonFlag (s : String) (h : nonFlag s) : parseOne s = Step.stop := by
  obtain ⟨l⟩ := s
  unfold parseOne
  match l, h with
  | [], _ => rfl
  | [_], _ => rfl
  | c0 :: c1 :: cs, h =>
    rcases h with h | h
    · have : c0 ≠ '-' := by simpa using h
      simp [this]
    · have := congrArg String.data h
      simp at this

theorem flagArgs_cons_of_flag (a : String) (t : List String)
    (h1 : parseOne a ≠ Step.stop) (h2 : parseOne a ≠ Step.terminator) :
    flagArgs (a :: t) = a :: flagArgs t := by
  simp [flagArgs, List.takeWhile_cons, h1, h2]

theorem flagArgs_cons_of_stop (a : String) (t : List String)
    (h : parseOne a = Step.stop ∨ parseOne a = Step.terminator) :
    flagArgs (a :: t) = [] := by
  rcases h with h | h <;> simp [flagArgs, List.takeWhile_cons, h]

theorem flagArgs_cons_eq (a : String) (args l : List String) (x : String)
    (h : flagArgs (a :: args) = x :: l) :
    a = x ∧ flagArgs args = l ∧ parseOne a ≠ Step.stop ∧ parseOne a ≠ Step.terminator := by
  unfold flagArgs at h
  rw [List.takeWhile_cons] at h
  split_ifs at h with hp
  · simp only [List.cons.injEq] at h
    have hp2 : parseOne a ≠ Step.stop ∧ parseOne a ≠ Step.terminator := by simpa using hp
    exact ⟨h.1, h.2, hp2.1, hp2.2⟩

theorem Parse_true_stays (args : List String) (v : Bool) (rest : List String)
    (h : Parse true args = ParseResult.ok v rest)
    (hno : ∀ a ∈ flagArgs args, a ∉ verboseForms false) : v = true := by
  induction args with
  | nil => simp [Parse] at h; exact h.1
  | cons a t ih =>
    simp only [Parse] at h
    cases hp : parseOne a with
    | seen b =>
      rw [hp] at h
      simp only at h
      have hfa : flagArgs (a :: t) = a :: flagArgs t :=
        flagArgs_cons_of_flag a t (by simp [hp]) (by simp [hp])
      rw [hfa] at hno
      have hb : b = true := by
        cases b
        · exact absurd (parseOne_seen a false hp) (hno a (List.mem_cons_self _ _))
        · rfl
      subst hb
      exact ih h fun x hx => hno x (List.mem_cons_of_mem _ hx)
    | stop => rw [hp] at h; simp at h; exact h.1
    | terminator => rw [hp] at h; simp at h; exact h.1
    | fail e => rw [hp] at h; simp at h

theorem Parse_reaches_true (pre : List String) :
    ∀ (args : List String) (v0 : Bool) (a : String) (post : List String)
      (v : Bool) (rest : List String),
      flagArgs args = pre ++ a :: post → parseOne a = Step.seen true →
      (∀ x ∈ post, x ∉ verboseForms false) →
      Parse v0 args = ParseResult.ok v rest → v = true := by
  induction pre with
  | nil =>
    intro args v0 a post v rest hfa ha hpost hparse
    cases args with
    | nil => simp [flagArgs] at hfa
    | cons x t =>
      simp only [List.nil_append] at hfa
      obtain ⟨rfl, ht, -, -⟩ := flagArgs_cons_eq x t post a hfa
      simp only [Parse, ha] at hparse
      exact Parse_true_stays t v rest hparse (by rw [ht]; exact hpost)
  | cons p pre ih =>
    intro args v0 a post v rest hfa ha hpost hparse
    cases args with
    | nil => simp [flagArgs] at hfa
    | cons x t =>
      simp only [List.cons_append] at hfa
      obtain ⟨rfl, ht, h1, h2⟩ := flagArgs_cons_eq x t _ p hfa
      simp only [Parse] at hparse
      cases hp : parseOne x with
      | seen b =>
        rw [hp] at hparse
        exact ih t b a post v rest ht ha hpost hparse
      | stop => exact absurd hp h1
      | terminator => exact absurd hp h2
      | fail e => rw [hp] at hparse; simp at hparse

theorem Parse_fails_in_flagArgs (args : List String) (v : Bool)
    (h : ∃ a ∈ flagArgs args, ∃ e, parseOne a = Step.fail e) :
    ∃ x e, x ∈ flagArgs args ∧ parseOne x = Step.fail e ∧
      Parse v args = ParseResult.exit e := by
  induction args generalizing v with
  | nil => simp [flagArgs] at h
  | cons x t ih =>
    simp only [Parse]
    cases hp : parseOne x with
    | seen b =>
      simp only
      have hfa := flagArgs_cons_of_flag x t (by simp [hp]) (by simp [hp])
      have hex : ∃ a ∈ flagArgs t, ∃ e, parseOne a = Step.fail e := by
        obtain ⟨a, ha, e, he⟩ := h
        rw [hfa] at ha
        rcases List.mem_cons.mp ha with rfl | ha
        · rw [hp] at he; cases he
        · exact ⟨a, ha, e, he⟩
      obtain ⟨y, e, hy, hye, hP⟩ := ih b hex
      exact ⟨y, e, by rw [hfa]; exact List.mem_cons_of_mem _ hy, hye, hP⟩
    | stop =>
      obtain ⟨a, ha, e, he⟩ := h
      rw [flagArgs_cons_of_stop x t (Or.inl hp)] at ha
      cases ha
    | terminator =>
      obtain ⟨a, ha, e, he⟩ := h
      rw [flagArgs_cons_of_stop x t (Or.inr hp)] at ha
      cases ha
    | fail e =>
      have hfa := flagArgs_cons_of_flag x t (by simp [hp]) (by simp [hp])
      exact ⟨x, e, by rw [hfa]; exact List.mem_cons_self _ _, hp, rfl⟩

theorem Parse_false_stays (args : List String) (v : Bool) (rest : List String)
    (h : Parse false args = ParseResult.ok v rest)
    (hno : ∀ a ∈ args, a ∉ verboseForms true) : v = false := by
  induction args with
  | nil => simp [Parse] at h; exact h.1
  | cons a t ih =>
    simp only [Parse] at h
    cases hp : parseOne a with
    | seen b =>
      rw [hp] at h
      simp only at h
      have hb : b = false := by
        cases b
        · rfl
        · exact absurd (parseOne_seen a true hp) (hno a (List.mem_cons_self _ _))
      subst hb
      exact ih h fun x hx => hno x (List.mem_cons_of_mem _ hx)
    | stop => rw [hp] at h; simp at h; exact h.1
    | terminator => rw [hp] at h; simp at h; exact h.1
    | fail e => rw [hp] at h; simp at h

theorem Parse_last_decides (pre : List String) :
    ∀ (v0 : Bool) (a : String) (b : Bool) (rest : List String),
      (∀ x ∈ pre, ∃ c, x ∈ verboseForms c) → a ∈ verboseForms b →
      (rest = [] ∨ ∃ r rs, rest = r :: rs ∧ (nonFlag r ∨ r = "--")) →
      ∃ rest2, Parse v0 (pre ++ a :: rest) = ParseResult.ok b rest2 := by
  induction pre with
  | nil =>
    intro v0 a b rest _ ha hrest
    simp only [List.nil_append, Parse, parseOne_of_form b a ha]
    rcases hrest with rfl | ⟨r, rs, rfl, hr | rfl⟩
    · exact ⟨[], rfl⟩
    · exact ⟨r :: rs, by simp [Parse, parseOne_nonFlag r hr]⟩
    · exact ⟨rs, by simp [Parse, show parseOne "--" = Step.terminator by decide]⟩
  | cons p pre ih =>
    intro v0 a b rest hpre ha hrest
    obtain ⟨c, hc⟩ := hpre p (List.mem_cons_self p pre)
    simp only [List.cons_append, Parse, parseOne_of_form c p hc]
    exact ih c a b rest (fun x hx => hpre x (List.mem_cons_of_mem p hx)) ha hrest
theorem output_ends_with_usage {App : Type} (env : Env App) (e : FlagError) :
    ∃ pre, e.output env = pre ++ usage env.prog := by
  cases e with
  | ErrHelp => exact ⟨"", by simp [FlagError.output]⟩
  | malformed s => exact ⟨_, rfl⟩
  | undefined name => exact ⟨_, rfl⟩
  | invalidBool value => exact ⟨_, rfl⟩

theorem status_eq_two_or_help (e : FlagError) :
    e.status = 2 ∨ (e = FlagError.ErrHelp ∧ e.status = 0) := by
  cases e <;> simp [FlagError.status]

theorem main_of_exit {App : Type} (env : Env App) (args : List String)
    (e : FlagError) (h : Parse false args = ParseResult.exit e) :
    main env args = ⟨e.status, e.output env, [Event.osExit e.status]⟩ := by
  simp [main, h]

theorem main_of_ok_none {App : Type} (env : Env App) (args : List String)
    (v : Bool) (rest : List String) (h : Parse false args = ParseResult.ok v rest)
    (hr : env.Run (env.NewApp v) = none) :
    main env args =
      ⟨0, "", [Event.parsed v, Event.NewApp v, Event.Run, Event.ret]⟩ := by
  simp [main, h, hr]

theorem main_of_ok_some {App : Type} (env : Env App) (args : List String)
    (v : Bool) (rest : List String) (m : String)
    (h : Parse false args = ParseResult.ok v rest)
    (hr : env.Run (env.NewApp v) = some m) :
    main env args =
      ⟨1, fatalOutput env.stamp m,
        [Event.parsed v, Event.NewApp v, Event.Run, Event.logFatal m,
          Event.osExit 1]⟩ := by
  simp [main, h, hr]

theorem exec_mainShell_erase {App : Type} (env : Env App) (args : List String) :
    (mainShell.exec env args).erase = main env args := by
  unfold mainShell main
  simp only [Shell.exec]
  cases Parse false args with
  | exit e => rfl
  | ok v rest =>
    simp only
    cases env.Run (env.NewApp v) <;> rfl

theorem exec_mainShell_calls {App : Type} (env : Env App) (args : List String)
    (v : Bool) (rest : List String)
    (h : Parse false args = ParseResult.ok v rest) :
    (mainShell.exec env args).calls =
      [Call.flagParse v, Call.NewApp v (env.NewApp v),
        Call.Run (env.NewApp v) (env.Run (env.NewApp v))] ++
      (match env.Run (env.NewApp v) with
        | none => [Call.ret]
        | some m => [Call.logFatal m, Call.osExit 1]) := by
  unfold mainShell
  simp only [Shell.exec, h]
  cases env.Run (env.NewApp v) <;> rfl

/-! ## The claims -/

/-- Claim C1: when the arguments parse and `Run` returns a non-nil error with message
`m`, the process ends through `log.Fatal` with exit status 1 (so non-zero) and
`m` occurs in what was written to standard error. -/
theorem C1_run_error_exits_nonzero_with_message {App : Type} (env : Env App)
    (args : List String) (v : Bool) (rest : List String) (m : String)
    (hparse : Parse false args = ParseResult.ok v rest)
    (hrun : env.Run (env.NewApp v) = some m) :
    (main env args).status = 1 ∧ (main env args).status ≠ 0 ∧
      (∃ pre post, (main env args).stderr = pre ++ m ++ post) ∧
      Event.logFatal m ∈ (main env args).trace := by
  rw [main_of_ok_some env args v rest m hparse hrun]
  exact ⟨rfl, by simp, ⟨env.stamp, _, rfl⟩, by simp⟩

/-- Claim C1 at the scenario of the specification: no flags, `Run` returns the error
"disk unavailable". -/
theorem C1_disk_unavailable_witness :
    (main (sampleEnv fun _ => some "disk unavailable") []).status = 1 ∧
      (main (sampleEnv fun _ => some "disk unavailable") []).status ≠ 0 ∧
      (∃ pre post, (main (sampleEnv fun _ => some "disk unavailable") []).stderr
        = pre ++ "disk unavailable" ++ post) ∧
      Event.logFatal "disk unavailable" ∈
        (main (sampleEnv fun _ => some "disk unavailable") []).trace :=
  C1_run_error_exits_nonzero_with_message
    (sampleEnv fun _ => some "disk unavailable") [] false [] "disk unavailable"
    rfl rfl

/-- Claim C2: when the arguments parse and `Run` returns no error, `main` returns
normally (its last step is the return, no exit call is made), the exit status
is 0 and nothing was written to standard error. -/
theorem C2_run_success_exits_zero_silently {App : Type} (env : Env App)
    (args : List String) (v : Bool) (rest : List String)
    (hparse : Parse false args = ParseResult.ok v rest)
    (hrun : env.Run (env.NewApp v) = none) :
    (main env args).status = 0 ∧ (main env args).stderr = "" ∧
      (main env args).trace.getLast? = some Event.ret ∧
      ∀ c, Event.osExit c ∉ (main env args).trace := by
  rw [main_of_ok_none env args v rest hparse hrun]
  simp

/-- Claim C2 at the scenario "no flags, the run succeeds". -/
theorem C2_no_flags_success_witness :
    (main (sampleEnv fun _ => none) []).status = 0 ∧
      (main (sampleEnv fun _ => none) []).stderr = "" ∧
      (main (sampleEnv fun _ => none) []).trace.getLast? = some Event.ret ∧
      ∀ c, Event.osExit c ∉ (main (sampleEnv fun _ => none) []).trace :=
  C2_run_success_exits_zero_silently (sampleEnv fun _ => none) [] false [] rfl rfl

/-- Claim C3 fails as stated: `--verbose` is present and the arguments parse,
yet `NewApp` receives `false`, when a later `--verbose=false` overrides it and
when `--verbose` comes after a positional argument. -/
theorem C3_verbose_present_yet_false :
    ("--verbose" ∈ ["--verbose", "--verbose=false"] ∧
      Parse false ["--verbose", "--verbose=false"] = ParseResult.ok false [] ∧
      (main (sampleEnv fun _ => none) ["--verbose", "--verbose=false"]).trace =
        [Event.parsed false, Event.NewApp false, Event.Run, Event.ret]) ∧
    ("--verbose" ∈ ["input.txt", "--verbose"] ∧
      Parse false ["input.txt", "--verbose"] =
        ParseResult.ok false ["input.txt", "--verbose"] ∧
      (main (sampleEnv fun _ => none) ["input.txt", "--verbose"]).trace =
        [Event.parsed false, Event.NewApp false, Event.Run, Event.ret]) := by
  decide

/-- Claim C3, amended: when the arguments parse, `--verbose` is among the
arguments parsed as flags (those before the first non-flag argument or the
terminator `--`) and no argument after it in that range sets the flag to a
false value, `NewApp` receives `true`. -/
theorem C3_verbose_true_unless_overridden {App : Type} (env : Env App)
    (args pre post : List String) (v : Bool) (rest : List String)
    (hvalid : Parse false args = ParseResult.ok v rest)
    (hpresent : flagArgs args = pre ++ "--verbose" :: post)
    (hlater : ∀ a ∈ post, a ∉ verboseForms false) :
    v = true ∧ Event.NewApp true ∈ (main env args).trace ∧
      Event.NewApp false ∉ (main env args).trace := by
  have hv : v = true :=
    Parse_reaches_true pre args false "--verbose" post v rest hpresent
      (by decide) hlater hvalid
  subst hv
  cases hr : env.Run (env.NewApp true) with
  | none => rw [main_of_ok_none env args true rest hvalid hr]; simp
  | some m => rw [main_of_ok_some env args true rest m hvalid hr]; simp

/-- Claim C3, amended, at `-verbose=0 --verbose --verbose=T x --verbose=false`:
the last flag before the positional argument sets `true`. -/
theorem C3_verbose_true_witness :
    Parse false ["-verbose=0", "--verbose", "--verbose=T", "x", "--verbose=false"]
        = ParseResult.ok true ["x", "--verbose=false"] ∧
      flagArgs ["-verbose=0", "--verbose", "--verbose=T", "x", "--verbose=false"]
        = ["-verbose=0"] ++ "--verbose" :: ["--verbose=T"] ∧
      (∀ a ∈ ["--verbose=T"], a ∉ verboseForms false) ∧
      (true = true ∧
        Event.NewApp true ∈ (main (sampleEnv fun _ => none)
          ["-verbose=0", "--verbose", "--verbose=T", "x", "--verbose=false"]).trace ∧
        Event.NewApp false ∉ (main (sampleEnv fun _ => none)
          ["-verbose=0", "--verbose", "--verbose=T", "x", "--verbose=false"]).trace) :=
  ⟨by decide, by decide, by decide,
    C3_verbose_true_unless_overridden (sampleEnv fun _ => none)
      ["-verbose=0", "--verbose", "--verbose=T", "x", "--verbose=false"]
      ["-verbose=0"] ["--verbose=T"] true ["x", "--verbose=false"]
      (by decide) (by decide) (by decide)⟩

/-- Claim C4 fails as stated: the lists `-verbose` and `--verbose=true` contain
no argument `--verbose`, they parse, and `NewApp` receives `true`. -/
theorem C4_other_spellings_give_true :
    ("--verbose" ∉ ["-verbose"] ∧
      Parse false ["-verbose"] = ParseResult.ok true [] ∧
      (main (sampleEnv fun _ => none) ["-verbose"]).trace =
        [Event.parsed true, Event.NewApp true, Event.Run, Event.ret]) ∧
    ("--verbose" ∉ ["--verbose=true"] ∧
      Parse false ["--verbose=true"] = ParseResult.ok true [] ∧
      (main (sampleEnv fun _ => none) ["--verbose=true"]).trace =
        [Event.parsed true, Event.NewApp true, Event.Run, Event.ret]) := by
  decide

/-- Claim C4, amended: when the arguments parse and no argument is `--verbose`
or another spelling that sets the flag to true (`-verbose`, or `-verbose=v` or
`--verbose=v` with `v` one of 1, t, T, true, TRUE, True), `NewApp` receives
`false`, the default. -/
theorem C4_no_verbose_flag_gives_false {App : Type} (env : Env App)
    (args : List String) (v : Bool) (rest : List String)
    (hvalid : Parse false args = ParseResult.ok v rest)
    (habsent : ∀ a ∈ args, a ∉ verboseForms true) :
    v = false ∧ Event.NewApp false ∈ (main env args).trace ∧
      Event.NewApp true ∉ (main env args).trace := by
  have hv : v = false := Parse_false_stays args v rest hvalid habsent
  subst hv
  cases hr : env.Run (env.NewApp false) with
  | none => rw [main_of_ok_none env args false rest hvalid hr]; simp
  | some m => rw [main_of_ok_some env args false rest m hvalid hr]; simp

/-- Claim C4, amended, at the arguments `--verbose=false input.txt -x`: no
argument sets the flag to true, and the application is built with `false`. -/
theorem C4_no_verbose_flag_witness :
    Parse false ["--verbose=false", "input.txt", "-x"] =
        ParseResult.ok false ["input.txt", "-x"] ∧
      (∀ a ∈ ["--verbose=false", "input.txt", "-x"], a ∉ verboseForms true) ∧
      (false = false ∧
        Event.NewApp false ∈ (main (sampleEnv fun _ => none)
          ["--verbose=false", "input.txt", "-x"]).trace ∧
        Event.NewApp true ∉ (main (sampleEnv fun _ => none)
          ["--verbose=false", "input.txt", "-x"]).trace) :=
  ⟨by decide, by decide,
    C4_no_verbose_flag_gives_false (sampleEnv fun _ => none)
      ["--verbose=false", "input.txt", "-x"] false ["input.txt", "-x"]
      (by decide) (by decide)⟩

/-- Claim C5 fails as stated: `--help` names a flag other than `verbose` and
the process exits with status 0; and `--bogus` after a positional argument is
never parsed, so the application is constructed and run. -/
theorem C5_help_exits_zero_and_unparsed_bogus_runs :
    (unrecognized "--help" ∧
      (main (sampleEnv fun _ => none) ["--help"]).status = 0) ∧
    ("--bogus" ∈ ["input.txt", "--bogus"] ∧ unrecognized "--bogus" ∧
      (main (sampleEnv fun _ => none) ["input.txt", "--bogus"]) =
        ⟨0, "", [Event.parsed false, Event.NewApp false, Event.Run, Event.ret]⟩) := by
  refine ⟨⟨Or.inl (by decide), by decide⟩, by decide, Or.inr ⟨"bogus", by decide⟩,
    by decide⟩

/-- Claim C5, amended: when a flag that is not defined occurs among the
arguments parsed as flags (those before the first non-flag argument or the
terminator `--`), flag parsing ends with an error `e` at one of those
arguments, the process exits with the usage message at the end of standard
error, neither `NewApp` nor `Run` is called, and the exit status is 0 when
parsing ended at a help flag (`e` is `ErrHelp`) and 2 otherwise. -/
theorem C5_undefined_flag_exits_with_usage {App : Type} (env : Env App)
    (args : List String) (a : String)
    (hmem : a ∈ flagArgs args) (hundef : unrecognized a) :
    (∀ v, Event.NewApp v ∉ (main env args).trace) ∧
      Event.Run ∉ (main env args).trace ∧
      (∃ pre, (main env args).stderr = pre ++ usage env.prog) ∧
      ∃ x e, x ∈ flagArgs args ∧ parseOne x = Step.fail e ∧
        Parse false args = ParseResult.exit e ∧
        (main env args).status = if e = FlagError.ErrHelp then 0 else 2 := by
  have hfail : ∃ x ∈ flagArgs args, ∃ e, parseOne x = Step.fail e := by
    rcases hundef with h | ⟨name, h⟩
    · exact ⟨a, hmem, _, h⟩
    · exact ⟨a, hmem, _, h⟩
  obtain ⟨x, e, hx, hxe, he⟩ := Parse_fails_in_flagArgs args false hfail
  rw [main_of_exit env args e he]
  refine ⟨by simp, by simp, output_ends_with_usage env e, x, e, hx, hxe, he, ?_⟩
  cases e <;> simp [FlagError.status]

/-- Claim C5, amended, at the scenario of the specification, `--bogus` (status
2), and at `--verbose -h --bogus`, where parsing ends at the help flag (status
0). -/
theorem C5_bogus_witness :
    ("--bogus" ∈ flagArgs ["--bogus"] ∧ unrecognized "--bogus" ∧
      (∀ v, Event.NewApp v ∉ (main (sampleEnv fun _ => none) ["--bogus"]).trace) ∧
      Event.Run ∉ (main (sampleEnv fun _ => none) ["--bogus"]).trace ∧
      (∃ pre, (main (sampleEnv fun _ => none) ["--bogus"]).stderr =
        pre ++ usage "quantumautomate") ∧
      ∃ x e, x ∈ flagArgs ["--bogus"] ∧ parseOne x = Step.fail e ∧
        Parse false ["--bogus"] = ParseResult.exit e ∧
        (main (sampleEnv fun _ => none) ["--bogus"]).status =
          if e = FlagError.ErrHelp then 0 else 2) ∧
    ("--bogus" ∈ flagArgs ["--verbose", "-h", "--bogus"] ∧
      Parse false ["--verbose", "-h", "--bogus"] =
        ParseResult.exit FlagError.ErrHelp ∧
      (main (sampleEnv fun _ => none) ["--verbose", "-h", "--bogus"]).status = 0 ∧
      (main (sampleEnv fun _ => none) ["--bogus"]).status = 2) :=
  ⟨⟨by decide, Or.inr ⟨"bogus", by decide⟩,
      C5_undefined_flag_exits_with_usage (sampleEnv fun _ => none) ["--bogus"]
        "--bogus" (by decide) (Or.inr ⟨"bogus", by decide⟩)⟩,
    by decide, by decide,
    (by
      obtain ⟨_, _, _, x, e, _, _, hP, hs⟩ :=
        C5_undefined_flag_exits_with_usage (sampleEnv fun _ => none)
          ["--verbose", "-h", "--bogus"] "--bogus" (by decide)
          (Or.inr ⟨"bogus", by decide⟩)
      have he : e = FlagError.ErrHelp := by
        have h2 : Parse false ["--verbose", "-h", "--bogus"] =
            ParseResult.exit FlagError.ErrHelp := by decide
        rw [h2] at hP
        cases hP
        rfl
      rw [hs, he]
      rfl),
    (by
      obtain ⟨_, _, _, x, e, _, _, hP, hs⟩ :=
        C5_undefined_flag_exits_with_usage (sampleEnv fun _ => none)
          ["--bogus"] "--bogus" (by decide) (Or.inr ⟨"bogus", by decide⟩)
      have he : e = FlagError.undefined "bogus" := by
        have h2 : Parse false ["--bogus"] =
            ParseResult.exit (FlagError.undefined "bogus") := by decide
        rw [h2] at hP
        cases hP
        rfl
      rw [hs, he]
      rfl)⟩

/-- Claim C6: when the arguments parse with flag value `v`, the calls `main`
makes are, in this order, `flag.Parse` (returning `v`), `NewApp(v)` (returning
the instance `env.NewApp v`), `Run` on that instance, and then the return when
`Run` gave no error, or `log.Fatal` and the exit with status 1 when it gave
one.  So exactly one instance is constructed, `Run` is called exactly once and
on that instance, also when it returns an error; the states visited are
Created, Configured, Running and then Succeeded (no error) or Failed (an
error), each entered once, every step a transition of the specification; and
this run shows the same status, standard error and calls as `main`. -/
theorem C6_one_construction_one_run {App : Type} (env : Env App)
    (args : List String) (v : Bool) (rest : List String)
    (hparse : Parse false args = ParseResult.ok v rest) :
    (mainShell.exec env args).calls =
        [Call.flagParse v, Call.NewApp v (env.NewApp v),
          Call.Run (env.NewApp v) (env.Run (env.NewApp v))] ++
        (match env.Run (env.NewApp v) with
          | none => [Call.ret]
          | some m => [Call.logFatal m, Call.osExit 1]) ∧
      (mainShell.exec env args).calls.filter Call.isNewApp =
        [Call.NewApp v (env.NewApp v)] ∧
      (mainShell.exec env args).calls.filter Call.isRun =
        [Call.Run (env.NewApp v) (env.Run (env.NewApp v))] ∧
      phases (mainShell.exec env args) =
        [Phase.Created, Phase.Configured, Phase.Running,
          if env.Run (env.NewApp v) = none then Phase.Succeeded
          else Phase.Failed] ∧
      (phases (mainShell.exec env args)).Nodup ∧
      List.Chain' (fun p q => Phase.next p q = true)
        (phases (mainShell.exec env args)) ∧
      (mainShell.exec env args).erase = main env args := by
  have hcalls := exec_mainShell_calls env args v rest hparse
  refine ⟨hcalls, ?_, ?_, ?_, ?_, ?_, exec_mainShell_erase env args⟩
  all_goals
    try simp only [phases]
    rw [hcalls]
    cases env.Run (env.NewApp v) <;>
      simp [List.filter_cons, Call.isNewApp, Call.isRun, Call.enters, Phase.next]

/-- Claim C6 at `--verbose` with a run that fails: one construction, one run
on the instance constructed, states Created, Configured, Running, Failed. -/
theorem C6_failing_run_witness :
    Parse false ["--verbose"] = ParseResult.ok true [] ∧
      (mainShell.exec (sampleEnv fun _ => some "disk unavailable")
          ["--verbose"]).calls =
        [Call.flagParse true, Call.NewApp true true,
          Call.Run true (some "disk unavailable"),
          Call.logFatal "disk unavailable", Call.osExit 1] ∧
      (mainShell.exec (sampleEnv fun _ => some "disk unavailable")
          ["--verbose"]).calls.filter Call.isRun =
        [Call.Run true (some "disk unavailable")] ∧
      phases (mainShell.exec (sampleEnv fun _ => some "disk unavailable")
          ["--verbose"]) =
        [Phase.Created, Phase.Configured, Phase.Running, Phase.Failed] :=
  have h := C6_one_construction_one_run
    (sampleEnv fun _ => some "disk unavailable") ["--verbose"] true [] (by decide)
  ⟨by decide, h.1, h.2.2.1, h.2.2.2.1⟩

/-- Claim C7: when the arguments parse, with whatever verbose value `v`,
`NewApp` is called and then `Run` is called (constructing never ends the
process), and the process ends fatally, through `log.Fatal` with a non-zero
status, exactly when `Run` returns a non-nil error. -/
theorem C7_exit_path_from_run_alone {App : Type} (env : Env App)
    (args : List String) (v : Bool) (rest : List String)
    (hparse : Parse false args = ParseResult.ok v rest) :
    (main env args).trace.take 3 = [Event.parsed v, Event.NewApp v, Event.Run] ∧
      ((∃ m, Event.logFatal m ∈ (main env args).trace) ↔
        env.Run (env.NewApp v) ≠ none) ∧
      ((main env args).status ≠ 0 ↔ env.Run (env.NewApp v) ≠ none) ∧
      ((∃ c, Event.osExit c ∈ (main env args).trace) ↔
        env.Run (env.NewApp v) ≠ none) := by
  cases hr : env.Run (env.NewApp v) with
  | none => rw [main_of_ok_none env args v rest hparse hr]; simp
  | some m => rw [main_of_ok_some env args v rest m hparse hr]; simp

/-- Claim C7 with a run that fails only for a verbose application: with
`--verbose` the process ends fatally, the construction having completed. -/
theorem C7_exit_path_witness :
    Parse false ["--verbose"] = ParseResult.ok true [] ∧
      (main (sampleEnv fun b => if b then some "boom" else none)
          ["--verbose"]).trace.take 3 =
        [Event.parsed true, Event.NewApp true, Event.Run] ∧
      ((main (sampleEnv fun b => if b then some "boom" else none)
          ["--verbose"]).status ≠ 0 ↔
        (sampleEnv fun b => if b then some "boom" else none).Run
          ((sampleEnv fun b => if b then some "boom" else none).NewApp true) ≠ none) :=
  have h := C7_exit_path_from_run_alone
    (sampleEnv fun b => if b then some "boom" else none) ["--verbose"] true []
    (by decide)
  ⟨by decide, h.1, h.2.2.1⟩

/-- Claim C8 fails as stated: on `-h` flag parsing fails (`parseOne` returns
the error `ErrHelp`), `Run` is never called, and the exit status is 0. -/
theorem C8_help_request_exits_zero :
    Parse false ["-h"] = ParseResult.exit FlagError.ErrHelp ∧
      (main (sampleEnv fun _ => none) ["-h"]).status = 0 ∧
      Event.Run ∉ (main (sampleEnv fun _ => none) ["-h"]).trace := by
  decide

/-- Claim C8, amended: when flag parsing fails with the error `e`, the process
exits at once, the only call being the exit, with the usage message at the end
of standard error and `Run` never called; the status is 0 for the help request
(`e` is `ErrHelp`) and 2 for every other error.  And the exit status is 0 only
when `Run` was called and returned no error, or when parsing ended at the help
request. -/
theorem C8_parse_failure_exits_with_usage {App : Type} (env : Env App)
    (args : List String) :
    (∀ e, Parse false args = ParseResult.exit e →
      (main env args).trace = [Event.osExit (main env args).status] ∧
        Event.Run ∉ (main env args).trace ∧
        (∃ pre, (main env args).stderr = pre ++ usage env.prog) ∧
        (main env args).status = if e = FlagError.ErrHelp then 0 else 2) ∧
    ((main env args).status = 0 →
      (Event.Run ∈ (main env args).trace ∧
        ∃ v rest, Parse false args = ParseResult.ok v rest ∧
          env.Run (env.NewApp v) = none) ∨
      Parse false args = ParseResult.exit FlagError.ErrHelp) := by
  constructor
  · intro e he
    rw [main_of_exit env args e he]
    refine ⟨rfl, by simp, output_ends_with_usage env e, ?_⟩
    cases e <;> simp [FlagError.status]
  · intro h0
    cases hp : Parse false args with
    | exit e =>
      rw [main_of_exit env args e hp] at h0
      rcases status_eq_two_or_help e with h2 | ⟨he, _⟩
      · simp only at h0; omega
      · exact Or.inr (by rw [he])
    | ok v rest =>
      cases hr : env.Run (env.NewApp v) with
      | none =>
        rw [main_of_ok_none env args v rest hp hr]
        exact Or.inl ⟨by simp, v, rest, rfl, hr⟩
      | some m =>
        rw [main_of_ok_some env args v rest m hp hr] at h0
        simp at h0

/-- Claim C8, amended, at the malformed boolean `--verbose=maybe` (status 2,
usage, no run), at the help request `--verbose -h` (status 0, usage, no run)
and at a successful run without arguments (status 0). -/
theorem C8_parse_failure_witness :
    (Parse false ["--verbose=maybe"] =
        ParseResult.exit (FlagError.invalidBool "maybe") ∧
      (main (sampleEnv fun _ => none) ["--verbose=maybe"]).trace =
        [Event.osExit (main (sampleEnv fun _ => none) ["--verbose=maybe"]).status] ∧
      Event.Run ∉ (main (sampleEnv fun _ => none) ["--verbose=maybe"]).trace ∧
      (∃ pre, (main (sampleEnv fun _ => none) ["--verbose=maybe"]).stderr =
        pre ++ usage "quantumautomate") ∧
      (main (sampleEnv fun _ => none) ["--verbose=maybe"]).status =
        if FlagError.invalidBool "maybe" = FlagError.ErrHelp then 0 else 2) ∧
    (Parse false ["--verbose", "-h"] = ParseResult.exit FlagError.ErrHelp ∧
      (main (sampleEnv fun _ => none) ["--verbose", "-h"]).trace =
        [Event.osExit (main (sampleEnv fun _ => none) ["--verbose", "-h"]).status] ∧
      Event.Run ∉ (main (sampleEnv fun _ => none) ["--verbose", "-h"]).trace ∧
      (∃ pre, (main (sampleEnv fun _ => none) ["--verbose", "-h"]).stderr =
        pre ++ usage "quantumautomate") ∧
      (main (sampleEnv fun _ => none) ["--verbose", "-h"]).status =
        if FlagError.ErrHelp = FlagError.ErrHelp then 0 else 2) ∧
    ((main (sampleEnv fun _ => none) []).status = 0 ∧
      ((Event.Run ∈ (main (sampleEnv fun _ => none) []).trace ∧
        ∃ v rest, Parse false [] = ParseResult.ok v rest ∧
          (sampleEnv fun _ => none).Run ((sampleEnv fun _ => none).NewApp v) = none) ∨
      Parse false [] = ParseResult.exit FlagError.ErrHelp)) :=
  ⟨⟨by decide,
      (C8_parse_failure_exits_with_usage (sampleEnv fun _ => none)
        ["--verbose=maybe"]).1 (FlagError.invalidBool "maybe") (by decide)⟩,
    ⟨by decide,
      (C8_parse_failure_exits_with_usage (sampleEnv fun _ => none)
        ["--verbose", "-h"]).1 FlagError.ErrHelp (by decide)⟩,
    by decide,
    (C8_parse_failure_exits_with_usage (sampleEnv fun _ => none) []).2 (by decide)⟩

/-- Claim C9: parsing stops at the first non-flag argument or at `--`.  When
the first argument is a non-flag argument or `--`, parsing succeeds whatever
follows, `NewApp` receives `false` and `Run` is called; `--verbose=false`
gives `false`; and when the flag is given several times, every time in a valid
spelling, the last occurrence decides the value `NewApp` receives. -/
theorem C9_parsing_stops_and_last_flag_wins {App : Type} (env : Env App) :
    (∀ (a : String) (later : List String), nonFlag a ∨ a = "--" →
      (∃ rest, Parse false (a :: later) = ParseResult.ok false rest) ∧
        (main env (a :: later)).trace.take 3 =
          [Event.parsed false, Event.NewApp false, Event.Run]) ∧
    (main env ["--verbose=false"]).trace.take 3 =
      [Event.parsed false, Event.NewApp false, Event.Run] ∧
    (∀ (pre : List String) (a : String) (b : Bool) (rest : List String),
      (∀ x ∈ pre, ∃ c, x ∈ verboseForms c) → a ∈ verboseForms b →
      (rest = [] ∨ ∃ r rs, rest = r :: rs ∧ (nonFlag r ∨ r = "--")) →
      (main env (pre ++ a :: rest)).trace.take 3 =
        [Event.parsed b, Event.NewApp b, Event.Run]) := by
  have key : ∀ (args : List String) (v : Bool) (rest : List String),
      Parse false args = ParseResult.ok v rest →
      (main env args).trace.take 3 = [Event.parsed v, Event.NewApp v, Event.Run] := by
    intro args v rest hp
    cases hr : env.Run (env.NewApp v) with
    | none => rw [main_of_ok_none env args v rest hp hr]; rfl
    | some m => rw [main_of_ok_some env args v rest m hp hr]; rfl
  refine ⟨?_, key _ false [] (by decide), ?_⟩
  · intro a later ha
    have hp : ∃ rest, Parse false (a :: later) = ParseResult.ok false rest := by
      rcases ha with ha | rfl
      · exact ⟨a :: later, by simp [Parse, parseOne_nonFlag a ha]⟩
      · exact ⟨later, by simp [Parse, show parseOne "--" = Step.terminator by decide]⟩
    obtain ⟨rest, hrest⟩ := hp
    exact ⟨⟨rest, hrest⟩, key _ false rest hrest⟩
  · intro pre a b rest hpre ha hrest
    obtain ⟨rest2, h2⟩ := Parse_last_decides pre false a b rest hpre ha hrest
    exact key _ b rest2 h2

/-- Claim C9 at `input.txt --verbose --bogus`, at `-- --verbose`, and at the
repeated flag `--verbose=false -verbose --verbose=0 --verbose=TRUE out.txt`. -/
theorem C9_parsing_stops_witness :
    (nonFlag "input.txt" ∨ "input.txt" = "--") ∧
      (main (sampleEnv fun _ => none)
          ["input.txt", "--verbose", "--bogus"]).trace.take 3 =
        [Event.parsed false, Event.NewApp false, Event.Run] ∧
      (main (sampleEnv fun _ => none) ["--", "--verbose"]).trace.take 3 =
        [Event.parsed false, Event.NewApp false, Event.Run] ∧
      (main (sampleEnv fun _ => none)
          (["--verbose=false", "-verbose", "--verbose=0"] ++
            "--verbose=TRUE" :: ["out.txt"])).trace.take 3 =
        [Event.parsed true, Event.NewApp true, Event.Run] :=
  have h := C9_parsing_stops_and_last_flag_wins (sampleEnv fun _ => none)
  ⟨by decide,
    (h.1 "input.txt" ["--verbose", "--bogus"] (by decide)).2,
    (h.1 "--" ["--verbose"] (Or.inr rfl)).2,
    h.2.2 ["--verbose=false", "-verbose", "--verbose=0"] "--verbose=TRUE" true
      ["out.txt"] (by decide) (by decide)
      (Or.inr ⟨"out.txt", [], rfl, Or.inl (by decide)⟩)⟩

/-- Claim C10 fails as stated: on `-help` flag parsing fails (`parseOne`
returns the error `ErrHelp`) before the application is constructed, and the
exit status is 0, not 2. -/
theorem C10_help_failure_status_is_zero :
    Parse false ["-help"] = ParseResult.exit FlagError.ErrHelp ∧
      (main (sampleEnv fun _ => some "disk unavailable") ["-help"]).status = 0 ∧
      (main (sampleEnv fun _ => some "disk unavailable") ["-help"]).status ≠ 2 ∧
      (main (sampleEnv fun _ => some "disk unavailable") ["-help"]).trace =
        [Event.osExit 0] := by
  decide

/-- Claim C10, amended: when `Run` returns a non-nil error the exit status is
exactly 1; a flag-parsing failure exits before the application is constructed,
with status 2, except for the help request (`ErrHelp`), where it is 0; and the
exit status is 1 exactly when `Run` was called and returned an error. -/
theorem C10_exit_status_by_failure_class {App : Type} (env : Env App)
    (args : List String) :
    (∀ v rest m, Parse false args = ParseResult.ok v rest →
      env.Run (env.NewApp v) = some m → (main env args).status = 1) ∧
    (∀ e, Parse false args = ParseResult.exit e →
      (∀ v, Event.NewApp v ∉ (main env args).trace) ∧
        Event.Run ∉ (main env args).trace ∧
        (main env args).status = if e = FlagError.ErrHelp then 0 else 2) ∧
    ((main env args).status = 1 ↔
      Event.Run ∈ (main env args).trace ∧
        ∃ v rest m, Parse false args = ParseResult.ok v rest ∧
          env.Run (env.NewApp v) = some m) := by
  refine ⟨?_, ?_, ?_⟩
  · intro v rest m hp hr
    rw [main_of_ok_some env args v rest m hp hr]
  · intro e he
    rw [main_of_exit env args e he]
    refine ⟨by simp, by simp, ?_⟩
    cases e <;> simp [FlagError.status]
  · cases hp : Parse false args with
    | exit e =>
      rw [main_of_exit env args e hp]
      constructor
      · intro h1
        rcases status_eq_two_or_help e with h2 | ⟨_, h0⟩
        · simp only at h1; omega
        · simp only at h1; omega
      · rintro ⟨hrun, -⟩
        simp at hrun
    | ok v rest =>
      cases hr : env.Run (env.NewApp v) with
      | none =>
        rw [main_of_ok_none env args v rest hp hr]
        constructor
        · intro h1; simp at h1
        · rintro ⟨-, v2, rest2, m, h2, hm⟩
          cases h2
          rw [hr] at hm
          cases hm
      | some m =>
        rw [main_of_ok_some env args v rest m hp hr]
        exact ⟨fun _ => ⟨by simp, v, rest, m, rfl, hr⟩, fun _ => rfl⟩

/-- Claim C10, amended, at a failing run without arguments (status 1) and at
the undefined flag `--bogus` (status 2, nothing constructed). -/
theorem C10_exit_status_witness :
    (Parse false [] = ParseResult.ok false [] ∧
      (main (sampleEnv fun _ => some "disk unavailable") []).status = 1) ∧
    (Parse false ["--bogus"] = ParseResult.exit (FlagError.undefined "bogus") ∧
      (∀ v, Event.NewApp v ∉
        (main (sampleEnv fun _ => some "disk unavailable") ["--bogus"]).trace) ∧
      Event.Run ∉
        (main (sampleEnv fun _ => some "disk unavailable") ["--bogus"]).trace ∧
      (main (sampleEnv fun _ => some "disk unavailable") ["--bogus"]).status =
        if FlagError.undefined "bogus" = FlagError.ErrHelp then 0 else 2) :=
  ⟨⟨by decide,
      (C10_exit_status_by_failure_class
        (sampleEnv fun _ => some "disk unavailable") []).1 false []
        "disk unavailable" (by decide) rfl⟩,
    by decide,
    (C10_exit_status_by_failure_class
      (sampleEnv fun _ => some "disk unavailable") ["--bogus"]).2.1
      (FlagError.undefined "bogus") (by decide)⟩

end QuantumAutomate
